import Mathlib

/-!
Verification of the race-tracking core of the SGP data-challenge repository:
geodesy primitives (`src/utils/gps.py`), the mark-progression tracker
(`src/navigation/course.py`), VMC (`src/navigation/bearing.py`,
`src/navigation/course.py`), leader identification
(`src/race_analysis/leader.py`) and distance-to-leader
(`src/race_analysis/dtl.py`), shallowly embedded over the reals.

Numbers follow the floating-point source as exact reals; Python `float`
comparisons and arithmetic are modelled by the corresponding real operations.
Partial operations (list indexing that can raise `IndexError`) are modelled
with `Option`, where `none` is an uncaught Python exception.
-/

namespace SGP

noncomputable section

open Real List
open scoped Classical

/-! ## Geodesy primitives — `src/utils/gps.py` -/

/-- `np.radians`: degrees to radians. -/
def radians (x : ℝ) : ℝ := x * π / 180

/-- `np.arctan2 y x`, the quadrant-aware arctangent (numpy semantics). -/
def arctan2 (y x : ℝ) : ℝ :=
  if 0 < x then Real.arctan (y / x)
  else if x < 0 then
    (if 0 ≤ y then Real.arctan (y / x) + π else Real.arctan (y / x) - π)
  else
    (if 0 < y then π / 2 else if y < 0 then -(π / 2) else 0)

/-- The intermediate `a` of `haversine_distance` (gps.py lines 38-44):
`sin(dlat/2)**2 + cos(lat1)*cos(lat2)*sin(dlon/2)**2` with all latitudes
and longitudes converted to radians. -/
def hav_a (point1 point2 : ℝ × ℝ) : ℝ :=
  Real.sin ((radians point2.1 - radians point1.1) / 2) ^ 2 +
    Real.cos (radians point1.1) * Real.cos (radians point2.1) *
      Real.sin ((radians point2.2 - radians point1.2) / 2) ^ 2

/-- `haversine_distance` (gps.py lines 33-47): great-circle distance in
meters between two `(lat, lon)` points, Earth radius `R = 6371000`,
`c = 2 * arctan2(sqrt(a), sqrt(1 - a))`, result `R * c`. -/
def haversine_distance (point1 point2 : ℝ × ℝ) : ℝ :=
  6371000 * (2 * arctan2 (Real.sqrt (hav_a point1 point2))
    (Real.sqrt (1 - hav_a point1 point2)))

/-- Loop body of `filter_gps_jumps` (gps.py lines 22-29): each candidate is
kept iff its haversine distance from the last *kept* point is within the
threshold. -/
def filter_jumps_aux (max_jump_meters : ℝ) : ℝ × ℝ → List (ℝ × ℝ) → List (ℝ × ℝ)
  | _, [] => []
  | last, p :: ps =>
    if haversine_distance last p ≤ max_jump_meters then
      p :: filter_jumps_aux max_jump_meters p ps
    else
      filter_jumps_aux max_jump_meters last ps

/-- `filter_gps_jumps` (gps.py lines 6-30): returns short inputs unchanged,
otherwise keeps the first point unconditionally and filters the rest. -/
def filter_gps_jumps (points : List (ℝ × ℝ)) (max_jump_meters : ℝ) : List (ℝ × ℝ) :=
  if points.length < 2 then points
  else
    match points with
    | [] => []
    | p :: ps => p :: filter_jumps_aux max_jump_meters p ps

/-! ## Course model — `src/models/dataclasses.py`

Only the fields the tracking core reads are carried (`name`, `lat`, `lon`
for `Mark`; `name`, `marks` for `CompoundMark`); sequence ids and wind data
are never touched by the functions under verification. -/

structure Mark where
  name : String
  lat : ℝ
  lon : ℝ

structure CompoundMark where
  name : String
  marks : List Mark

/-- Placeholder mark for the (never exercised) out-of-range list accesses. -/
def defaultMark : Mark := ⟨"", 0, 0⟩

/-- Placeholder compound mark for out-of-range course accesses. -/
def defaultCompound : CompoundMark := ⟨"", []⟩

/-- 2-D cross product (z-component), `np.cross` on two length-2 vectors. -/
def cross2 (v w : ℝ × ℝ) : ℝ := v.1 * w.2 - v.2 * w.1

/-- `np.sign`. -/
def np_sign (x : ℝ) : ℝ := if 0 < x then 1 else if x < 0 then -1 else 0

/-! ## Mark rounding and tracking — `src/navigation/course.py` -/

/-- `is_mark_rounded` (course.py lines 42-118). `ROUNDING_ZONE = 100.0`,
`MAX_POSITION_JUMP = 300.0`. A jump above 300 m from the previous position
rejects the sample; a single mark is rounded within 100 m; a gate is
rounded within 100 m of either mark, or when the previous→current segment
crosses the gate line (sign change of cross products, with a non-parallel
guard `|cross| > 1e-10`). -/
def is_mark_rounded (current_pos : ℝ × ℝ) (mark : CompoundMark)
    (prev_pos : Option (ℝ × ℝ)) : Bool :=
  if prev_pos.elim False (fun pp => 300 < haversine_distance current_pos pp) then
    false
  else if mark.marks.length = 1 then
    decide (haversine_distance current_pos
      ((mark.marks.getD 0 defaultMark).lat, (mark.marks.getD 0 defaultMark).lon) ≤ 100)
  else
    match prev_pos with
    | none => false
    | some pp =>
      if ∃ gm ∈ mark.marks, haversine_distance current_pos (gm.lat, gm.lon) ≤ 100 then
        true
      else
        let m0 := mark.marks.getD 0 defaultMark
        let m1 := mark.marks.getD 1 defaultMark
        let gate_vector : ℝ × ℝ := (m1.lat - m0.lat, m1.lon - m0.lon)
        let boat_vector : ℝ × ℝ := (current_pos.1 - pp.1, current_pos.2 - pp.2)
        if 1e-10 < |cross2 gate_vector boat_vector| then
          let prev_vector : ℝ × ℝ := (pp.1 - m0.lat, pp.2 - m0.lon)
          let current_vector : ℝ × ℝ := (current_pos.1 - m0.lat, current_pos.2 - m0.lon)
          let prev_side := cross2 gate_vector prev_vector
          let current_side := cross2 gate_vector current_vector
          decide (np_sign prev_side ≠ np_sign current_side)
        else false

/-- One output row of `add_own_mark_tracking` (course.py lines 204-223). -/
structure TrackRow where
  NEXT_MARK : String
  MARK_DISTANCE : ℝ
  CURRENT_LEG_NUM : ℕ

/-- The state update of `add_own_mark_tracking` (course.py lines 198-200):
the index advances by one exactly when there is a previous position, the
guard `current_mark_idx < len(course) - 1` holds, and the mark is rounded. -/
def track_step_idx (course : List CompoundMark) (idx : ℕ) (prev : Option (ℝ × ℝ))
    (pos : ℝ × ℝ) : ℕ :=
  if prev.isSome ∧ idx < course.length - 1 ∧
      is_mark_rounded pos (course.getD idx defaultCompound) prev then
    idx + 1
  else idx

/-- The per-sample output of `add_own_mark_tracking` (course.py lines
202-223): the `FINISHED` row when the index is exhausted, else the next
mark's name and distance. -/
def track_row (course : List CompoundMark) (pos : ℝ × ℝ) (idx : ℕ) : TrackRow :=
  if course.length ≤ idx then ⟨"FINISHED", 0.0, idx⟩
  else
    let nm := (course.getD idx defaultCompound).marks.getD 0 defaultMark
    ⟨nm.name, haversine_distance pos (nm.lat, nm.lon), idx⟩

/-- The loop of `add_own_mark_tracking` (course.py lines 194-225), carrying
`current_mark_idx` and `prev_pos` across samples. -/
def track_aux (course : List CompoundMark) :
    ℕ → Option (ℝ × ℝ) → List (ℝ × ℝ) → List TrackRow
  | _, _, [] => []
  | idx, prev, pos :: rest =>
    let idx2 := track_step_idx course idx prev pos
    track_row course pos idx2 :: track_aux course idx2 (some pos) rest

/-- `add_own_mark_tracking` (course.py lines 173-229) restricted to the
columns it produces: starts at index 0 with no previous position. -/
def add_own_mark_tracking (course : List CompoundMark) (stream : List (ℝ × ℝ)) :
    List TrackRow :=
  track_aux course 0 none stream

/-! ## VMC — `src/navigation/bearing.py`, `src/navigation/course.py`

`calculate_bearing` delegates to the external `pyproj` WGS84 geodesic
(`Geod.inv` forward azimuth) and is not code of this repository; the
tracker is therefore parametric in the bearing function. -/

/-- `calculate_vmc` (bearing.py lines 13-21): fold `|heading - bearing|`
once at 180° and take `speed * cos` of the result in radians. -/
def calculate_vmc (boat_speed boat_heading course_bearing : ℝ) : ℝ :=
  let angle_diff := |boat_heading - course_bearing|
  let angle_diff2 := if 180 < angle_diff then 360 - angle_diff else angle_diff
  boat_speed * Real.cos (radians angle_diff2)

/-- Input row of `calculate_track_vmc` (the columns it reads). -/
structure VmcRow where
  LATITUDE_GPS : ℝ
  LONGITUDE_GPS : ℝ
  SPEED : ℝ
  HEADING : ℝ
  CURRENT_LEG_NUM : ℕ

/-- One iteration of `calculate_track_vmc` (course.py lines 138-168):
`CURRENT_LEG_NUM == 7` short-circuits to VMC 0; otherwise the row indexes
`course[CURRENT_LEG_NUM].marks[0]` (`none` = `IndexError`) and applies
`calculate_vmc` to the bearing toward that mark. -/
def vmc_row (bearing : ℝ → ℝ → ℝ → ℝ → ℝ) (course : List CompoundMark)
    (r : VmcRow) : Option ℝ :=
  if r.CURRENT_LEG_NUM = 7 then some 0.0
  else
    match course.get? r.CURRENT_LEG_NUM with
    | none => none
    | some cm =>
      match cm.marks.head? with
      | none => none
      | some nm =>
        some (calculate_vmc r.SPEED r.HEADING
          (bearing r.LATITUDE_GPS r.LONGITUDE_GPS nm.lat nm.lon))

/-- `calculate_track_vmc` (course.py lines 121-170), parametric in the
external bearing function; `none` models an uncaught `IndexError`. -/
def calculate_track_vmc (bearing : ℝ → ℝ → ℝ → ℝ → ℝ) (boat_data : List VmcRow)
    (course : List CompoundMark) : Option (List ℝ) :=
  match boat_data with
  | [] => some []
  | r :: rs =>
    match vmc_row bearing course r with
    | none => none
    | some v => (calculate_track_vmc bearing rs course).map (v :: ·)

/-! ## Leader identification — `src/race_analysis/leader.py` -/

/-- The sort key of `determine_leader` (leader.py lines 123-129):
`(-mark_idx, dist_to_mark)` compared lexicographically (Python tuple
comparison). A boat is `(id, mark_idx, dist_to_mark)`. -/
def boat_key (b : String × ℤ × ℝ) : ℤ ×ₗ ℝ := toLex (-b.2.1, b.2.2)

/-- Python's `min(..., key=...)`: left fold keeping the first element whose
key is strictly smaller than the current best's. -/
def leader_fold (b0 : String × ℤ × ℝ) (bs : List (String × ℤ × ℝ)) :
    String × ℤ × ℝ :=
  bs.foldl (fun best x => if boat_key x < boat_key best then x else best) b0

/-- `determine_leader` (leader.py lines 118-129): `None` on an empty dict,
else the id of the key-minimal boat (first wins on full ties, as Python's
`min` over insertion-ordered keys). -/
def determine_leader (boat_positions : List (String × ℤ × ℝ)) : Option String :=
  match boat_positions with
  | [] => none
  | b :: bs => some (leader_fold b bs).1

/-! ## Distance to leader — `src/race_analysis/dtl.py`

Timestamps are modelled as integers (any linearly ordered time works for
the claims at hand). -/

structure LeaderRow where
  DATETIME : ℤ
  LEADER_ID : String
  LEADER_LAT : ℝ
  LEADER_LON : ℝ
  LEADER_LEG : ℕ

structure PosRow where
  DATETIME : ℤ
  LATITUDE_GPS : ℝ
  LONGITUDE_GPS : ℝ
  CURRENT_LEG_NUM : ℕ

structure DtlRow where
  DATETIME : ℤ
  DTL_DIRECT : ℝ
  DTL_INDIRECT : ℝ
  LEG_BEHIND : ℤ

/-- `Series.searchsorted` with the default `side='left'` on a sorted axis:
the first index whose element is `≥ t` (list length when there is none). -/
def searchsorted_left (ts : List ℤ) (t : ℤ) : ℕ := ts.findIdx (fun x => t ≤ x)

/-- Placeholder row for out-of-range leader accesses (never exercised:
`dtl_row` first checks the index bound, as dtl.py line 65 does). -/
def defaultLeaderRow : LeaderRow := ⟨0, "", 0, 0, 0⟩

/-- One iteration of the `calculate_dtl` loop (dtl.py lines 62-111).
`some none`: the row is silently skipped (`searchsorted` past the end);
`none`: an uncaught `IndexError` (`course[mark_idx]` or `marks[0]`);
`some (some d)`: the emitted record. -/
def dtl_row (leader_data : List LeaderRow) (course : List CompoundMark)
    (r : PosRow) : Option (Option DtlRow) :=
  let leader_idx := searchsorted_left (leader_data.map (·.DATETIME)) r.DATETIME
  if leader_data.length ≤ leader_idx then some none
  else
    let leader_row := leader_data.getD leader_idx defaultLeaderRow
    let boat_pos := (r.LATITUDE_GPS, r.LONGITUDE_GPS)
    let leader_pos := (leader_row.LEADER_LAT, leader_row.LEADER_LON)
    let dtl_direct := haversine_distance boat_pos leader_pos
    let mark_idx := r.CURRENT_LEG_NUM
    match (course.get? mark_idx).bind (fun cm => cm.marks.head?) with
    | none => none
    | some next_mark =>
      let dist_to_next := haversine_distance boat_pos (next_mark.lat, next_mark.lon)
      let leader_dist_to_next :=
        haversine_distance leader_pos (next_mark.lat, next_mark.lon)
      let dtl_indirect0 := dist_to_next + leader_dist_to_next
      let leg_behind0 : ℤ := (leader_row.LEADER_LEG : ℤ) - (mark_idx : ℤ)
      let dtl_indirect1 :=
        if mark_idx = leader_row.LEADER_LEG then dtl_direct else dtl_indirect0
      let special := r.DATETIME = leader_row.DATETIME ∧ dtl_direct < 1
      some (some ⟨r.DATETIME, dtl_direct,
        if special then 0 else dtl_indirect1,
        if special then 0 else leg_behind0⟩)

/-- `calculate_dtl` (dtl.py lines 37-113): iterate `dtl_row` over the
subject's samples, dropping skipped rows; `none` models an uncaught
exception aborting the whole call. -/
def calculate_dtl (position_data : List PosRow) (leader_data : List LeaderRow)
    (course : List CompoundMark) : Option (List DtlRow) :=
  match position_data with
  | [] => some []
  | r :: rs =>
    match dtl_row leader_data course r with
    | none => none
    | some none => calculate_dtl rs leader_data course
    | some (some d) => (calculate_dtl rs leader_data course).map (d :: ·)

/-! ## Spec-side definitions -/

/-- Modelled from the spec: the heading/bearing "angular difference reduced
to `[0,180]`" — the representative of `h - b` in `[0,360)` folded at 180°. -/
def spec_angular_diff (h b : ℝ) : ℝ :=
  180 - |((h - b) - 360 * ⌊(h - b) / 360⌋) - 180|

/-! ## Haversine theory -/

/-- Half-angle identity used to rewrite `hav_a`. -/
lemma sin_sq_half (x : ℝ) : Real.sin (x / 2) ^ 2 = (1 - Real.cos x) / 2 := by
  have h := Real.cos_two_mul (x / 2)
  have h2 : 2 * (x / 2) = x := by ring
  rw [h2] at h
  have h3 := Real.sin_sq_add_cos_sq (x / 2)
  linarith

/-- `hav_a` as half the versine of the central angle. -/
lemma hav_a_eq (p1 p2 : ℝ × ℝ) :
    hav_a p1 p2 =
      (1 - (Real.cos (radians p1.1) * Real.cos (radians p2.1) *
          Real.cos (radians p2.2 - radians p1.2) +
        Real.sin (radians p1.1) * Real.sin (radians p2.1))) / 2 := by
  unfold hav_a
  rw [sin_sq_half, sin_sq_half, Real.cos_sub]
  ring

/-- The spherical-law-of-cosines expression is at most 1. -/
lemma central_le_one (a b t : ℝ) :
    Real.cos a * Real.cos b * Real.cos t + Real.sin a * Real.sin b ≤ 1 := by
  have key : Real.cos a * Real.cos b * Real.cos t + Real.sin a * Real.sin b =
      ((1 + Real.cos t) / 2) * Real.cos (a - b) -
        ((1 - Real.cos t) / 2) * Real.cos (a + b) := by
    rw [Real.cos_sub, Real.cos_add]; ring
  have h1 : (0:ℝ) ≤ (1 + Real.cos t) * (1 - Real.cos (a - b)) :=
    mul_nonneg (by linarith [Real.neg_one_le_cos t]) (by linarith [Real.cos_le_one (a - b)])
  have h2 : (0:ℝ) ≤ (1 - Real.cos t) * (1 + Real.cos (a + b)) :=
    mul_nonneg (by linarith [Real.cos_le_one t]) (by linarith [Real.neg_one_le_cos (a + b)])
  nlinarith [key, h1, h2]

/-- The spherical-law-of-cosines expression is at least -1. -/
lemma central_ge_neg_one (a b t : ℝ) :
    -1 ≤ Real.cos a * Real.cos b * Real.cos t + Real.sin a * Real.sin b := by
  have key : Real.cos a * Real.cos b * Real.cos t + Real.sin a * Real.sin b =
      ((1 + Real.cos t) / 2) * Real.cos (a - b) -
        ((1 - Real.cos t) / 2) * Real.cos (a + b) := by
    rw [Real.cos_sub, Real.cos_add]; ring
  have h1 : (0:ℝ) ≤ (1 + Real.cos t) * (1 + Real.cos (a - b)) :=
    mul_nonneg (by linarith [Real.neg_one_le_cos t]) (by linarith [Real.neg_one_le_cos (a - b)])
  have h2 : (0:ℝ) ≤ (1 - Real.cos t) * (1 - Real.cos (a + b)) :=
    mul_nonneg (by linarith [Real.cos_le_one t]) (by linarith [Real.cos_le_one (a + b)])
  nlinarith [key, h1, h2]

lemma hav_a_nonneg (p1 p2 : ℝ × ℝ) : 0 ≤ hav_a p1 p2 := by
  rw [hav_a_eq]
  have := central_le_one (radians p1.1) (radians p2.1) (radians p2.2 - radians p1.2)
  linarith

lemma hav_a_le_one (p1 p2 : ℝ × ℝ) : hav_a p1 p2 ≤ 1 := by
  rw [hav_a_eq]
  have := central_ge_neg_one (radians p1.1) (radians p2.1) (radians p2.2 - radians p1.2)
  linarith

/-- On `[0,1]`, the code's `arctan2(sqrt a, sqrt(1-a))` is `arcsin (sqrt a)`. -/
lemma arctan2_sqrt_eq_arcsin (a : ℝ) (h0 : 0 ≤ a) (h1 : a ≤ 1) :
    arctan2 (Real.sqrt a) (Real.sqrt (1 - a)) = Real.arcsin (Real.sqrt a) := by
  rcases lt_or_eq_of_le h1 with hlt | heq
  · have hx : 0 < Real.sqrt (1 - a) := Real.sqrt_pos.mpr (by linarith)
    rw [arctan2, if_pos hx]
    have hs0 : 0 ≤ Real.sqrt a := Real.sqrt_nonneg a
    have hs1 : Real.sqrt a ≤ 1 := by
      have h2 := Real.sqrt_le_sqrt h1
      rwa [Real.sqrt_one] at h2
    have hslt : Real.sqrt a < 1 := by
      have h2 := Real.sqrt_lt_sqrt h0 hlt
      rwa [Real.sqrt_one] at h2
    have hθ0 : 0 ≤ Real.arcsin (Real.sqrt a) := Real.arcsin_nonneg.mpr hs0
    have hθlt : Real.arcsin (Real.sqrt a) < π / 2 := Real.arcsin_lt_pi_div_two.mpr hslt
    have hsin : Real.sin (Real.arcsin (Real.sqrt a)) = Real.sqrt a :=
      Real.sin_arcsin (by linarith) hs1
    have hcos : Real.cos (Real.arcsin (Real.sqrt a)) = Real.sqrt (1 - a) := by
      rw [Real.cos_arcsin, Real.sq_sqrt h0]
    have htan : Real.sqrt a / Real.sqrt (1 - a) = Real.tan (Real.arcsin (Real.sqrt a)) := by
      rw [Real.tan_eq_sin_div_cos, hsin, hcos]
    rw [htan, Real.arctan_tan (by linarith [Real.pi_pos]) hθlt]
  · subst heq
    norm_num [arctan2, Real.sqrt_one, Real.sqrt_zero, Real.arcsin_one, Real.pi_pos]

/-- `haversine_distance` through `arcsin`. -/
lemma haversine_eq_arcsin (p1 p2 : ℝ × ℝ) :
    haversine_distance p1 p2 =
      6371000 * (2 * Real.arcsin (Real.sqrt (hav_a p1 p2))) := by
  rw [haversine_distance, arctan2_sqrt_eq_arcsin _ (hav_a_nonneg p1 p2) (hav_a_le_one p1 p2)]

/-- Lower bound: if `hav_a` dominates `sin x0 ^ 2` then the distance is at
least the arc `2 * R * x0`. -/
lemma haversine_lb (p1 p2 : ℝ × ℝ) (x0 : ℝ) (h0 : 0 ≤ x0) (h1 : x0 ≤ π / 2)
    (ha : Real.sin x0 ^ 2 ≤ hav_a p1 p2) :
    6371000 * (2 * x0) ≤ haversine_distance p1 p2 := by
  rw [haversine_eq_arcsin]
  have hsn : 0 ≤ Real.sin x0 :=
    Real.sin_nonneg_of_nonneg_of_le_pi h0 (by linarith [Real.pi_pos])
  have hs : Real.sin x0 ≤ Real.sqrt (hav_a p1 p2) := by
    have h2 := Real.sqrt_le_sqrt ha
    rwa [Real.sqrt_sq hsn] at h2
  have h3 : x0 ≤ Real.arcsin (Real.sqrt (hav_a p1 p2)) := by
    have h4 : Real.arcsin (Real.sin x0) = x0 :=
      Real.arcsin_sin (by linarith [Real.pi_pos]) h1
    rw [← h4]
    exact Real.monotone_arcsin hs
  linarith

/-- Upper bound: if `sin x0 ^ 2` dominates `hav_a` then the distance is at
most the arc `2 * R * x0`. -/
lemma haversine_ub (p1 p2 : ℝ × ℝ) (x0 : ℝ) (h0 : 0 ≤ x0) (h1 : x0 ≤ π / 2)
    (ha : hav_a p1 p2 ≤ Real.sin x0 ^ 2) :
    haversine_distance p1 p2 ≤ 6371000 * (2 * x0) := by
  rw [haversine_eq_arcsin]
  have hsn : 0 ≤ Real.sin x0 :=
    Real.sin_nonneg_of_nonneg_of_le_pi h0 (by linarith [Real.pi_pos])
  have hs : Real.sqrt (hav_a p1 p2) ≤ Real.sin x0 := by
    have h2 := Real.sqrt_le_sqrt ha
    rwa [Real.sqrt_sq hsn] at h2
  have h3 : Real.arcsin (Real.sqrt (hav_a p1 p2)) ≤ x0 := by
    have h4 : Real.arcsin (Real.sin x0) = x0 :=
      Real.arcsin_sin (by linarith [Real.pi_pos]) h1
    rw [← h4]
    exact Real.monotone_arcsin hs
  linarith

/-- A point is at haversine distance 0 from itself. -/
lemma haversine_self (p : ℝ × ℝ) : haversine_distance p p = 0 := by
  have h : hav_a p p = 0 := by simp [hav_a]
  rw [haversine_distance, h]
  norm_num [arctan2, Real.sqrt_zero, Real.sqrt_one, Real.arctan_zero]

lemma hav_a_comm (p q : ℝ × ℝ) : hav_a p q = hav_a q p := by
  have hsq : ∀ x y : ℝ, Real.sin ((x - y) / 2) ^ 2 = Real.sin ((y - x) / 2) ^ 2 := by
    intro x y
    rw [show (x - y) / 2 = -((y - x) / 2) by ring, Real.sin_neg]
    ring
  unfold hav_a
  rw [hsq (radians q.1) (radians p.1), hsq (radians q.2) (radians p.2)]
  ring

lemma haversine_comm (p q : ℝ × ℝ) :
    haversine_distance p q = haversine_distance q p := by
  unfold haversine_distance
  rw [hav_a_comm]

/-! ## Concrete haversine bounds -/

/-- 0.01° of longitude on the equator is ≈ 1112 m, beyond the 100 m jump
threshold. -/
lemma hav_gt_100_equator : (100:ℝ) < haversine_distance (0, 0) (0, 0.01) := by
  have e : hav_a ((0:ℝ), (0:ℝ)) ((0:ℝ), (0.01:ℝ)) =
      Real.sin (0.01 * π / 180 / 2) ^ 2 := by
    simp only [hav_a, radians]
    rw [show ((0:ℝ) * π / 180 - 0 * π / 180) / 2 = 0 by ring,
      show (0:ℝ) * π / 180 = 0 by ring, Real.sin_zero, Real.cos_zero]
    norm_num
  have hb := haversine_lb (0, 0) (0, 0.01) (0.01 * π / 180 / 2)
    (by positivity) (by linarith [Real.pi_pos]) (le_of_eq e.symm)
  linarith [Real.pi_gt_three]

/-- (0,0) to (50,50) is thousands of kilometers, beyond the 100 m threshold. -/
lemma hav_gt_100_faraway : (100:ℝ) < haversine_distance (0, 0) (50, 50) := by
  have e : hav_a ((0:ℝ), (0:ℝ)) ((50:ℝ), (50:ℝ)) =
      Real.sin (50 * π / 180 / 2) ^ 2 +
        Real.cos (50 * π / 180) * Real.sin (50 * π / 180 / 2) ^ 2 := by
    simp only [hav_a, radians]
    rw [show ((50:ℝ) * π / 180 - 0 * π / 180) / 2 = 50 * π / 180 / 2 by ring,
      show (0:ℝ) * π / 180 = 0 by ring, Real.cos_zero]
    ring
  have hcos : (0:ℝ) ≤ Real.cos (50 * π / 180) :=
    Real.cos_nonneg_of_mem_Icc
      ⟨by linarith [Real.pi_pos], by linarith [Real.pi_pos]⟩
  have ha : Real.sin (50 * π / 180 / 2) ^ 2 ≤ hav_a (0, 0) (50, 50) := by
    rw [e]
    have := mul_nonneg hcos (sq_nonneg (Real.sin (50 * π / 180 / 2)))
    linarith
  have hb := haversine_lb (0, 0) (50, 50) (50 * π / 180 / 2)
    (by positivity) (by linarith [Real.pi_pos]) ha
  linarith [Real.pi_gt_three]

/-- 2° of latitude is ≈ 222 km, far beyond the 300 m position-jump limit. -/
lemma hav_gt_300_two_deg : (300:ℝ) < haversine_distance (1, 0.5) (-1, 0.5) := by
  have e : hav_a ((1:ℝ), (0.5:ℝ)) ((-1:ℝ), (0.5:ℝ)) = Real.sin (π / 180) ^ 2 := by
    simp only [hav_a, radians]
    rw [show ((-1:ℝ) * π / 180 - 1 * π / 180) / 2 = -(π / 180) by ring,
      show ((0.5:ℝ) * π / 180 - 0.5 * π / 180) / 2 = 0 by ring,
      Real.sin_neg, Real.sin_zero]
    ring
  have hb := haversine_lb (1, 0.5) (-1, 0.5) (π / 180)
    (by positivity) (by linarith [Real.pi_pos]) (le_of_eq e.symm)
  linarith [Real.pi_gt_three]

/-- 0.002° of latitude is ≈ 222 m, within the 300 m position-jump limit. -/
lemma hav_le_300_small_jump :
    haversine_distance (0.001, 0.0005) (-0.001, 0.0005) ≤ 300 := by
  have e : hav_a ((0.001:ℝ), (0.0005:ℝ)) ((-0.001:ℝ), (0.0005:ℝ)) =
      Real.sin (0.001 * π / 180) ^ 2 := by
    simp only [hav_a, radians]
    rw [show ((-0.001:ℝ) * π / 180 - 0.001 * π / 180) / 2 = -(0.001 * π / 180) by ring,
      show ((0.0005:ℝ) * π / 180 - 0.0005 * π / 180) / 2 = 0 by ring,
      Real.sin_neg, Real.sin_zero]
    ring
  have hb := haversine_ub (0.001, 0.0005) (-0.001, 0.0005) (0.001 * π / 180)
    (by positivity) (by linarith [Real.pi_pos]) (le_of_eq e)
  linarith [Real.pi_le_four]

/-- The scaled-down gate entry point is still more than 100 m from the first
gate mark. -/
lemma hav_gt_100_gate_m0 :
    (100:ℝ) < haversine_distance (0.001, 0.0005) (0, 0) := by
  have e : hav_a ((0.001:ℝ), (0.0005:ℝ)) ((0:ℝ), (0:ℝ)) =
      Real.sin (0.0005 * π / 180) ^ 2 +
        Real.cos (0.001 * π / 180) * Real.sin (0.00025 * π / 180) ^ 2 := by
    simp only [hav_a, radians]
    rw [show ((0:ℝ) * π / 180 - 0.001 * π / 180) / 2 = -(0.0005 * π / 180) by ring,
      show ((0:ℝ) * π / 180 - 0.0005 * π / 180) / 2 = -(0.00025 * π / 180) by ring,
      Real.sin_neg, Real.sin_neg,
      show (0:ℝ) * π / 180 = 0 by ring, Real.cos_zero]
    ring
  have hcos : (0:ℝ) ≤ Real.cos (0.001 * π / 180) :=
    Real.cos_nonneg_of_mem_Icc
      ⟨by linarith [Real.pi_pos], by linarith [Real.pi_pos]⟩
  have ha : Real.sin (0.0005 * π / 180) ^ 2 ≤ hav_a (0.001, 0.0005) (0, 0) := by
    rw [e]
    have := mul_nonneg hcos (sq_nonneg (Real.sin (0.00025 * π / 180)))
    linarith
  have hb := haversine_lb (0.001, 0.0005) (0, 0) (0.0005 * π / 180)
    (by positivity) (by linarith [Real.pi_pos]) ha
  linarith [Real.pi_gt_three]

/-- ... and more than 100 m from the second gate mark. -/
lemma hav_gt_100_gate_m1 :
    (100:ℝ) < haversine_distance (0.001, 0.0005) (0, 0.001) := by
  have e : hav_a ((0.001:ℝ), (0.0005:ℝ)) ((0:ℝ), (0.001:ℝ)) =
      Real.sin (0.0005 * π / 180) ^ 2 +
        Real.cos (0.001 * π / 180) * Real.sin (0.00025 * π / 180) ^ 2 := by
    simp only [hav_a, radians]
    rw [show ((0:ℝ) * π / 180 - 0.001 * π / 180) / 2 = -(0.0005 * π / 180) by ring,
      show ((0.001:ℝ) * π / 180 - 0.0005 * π / 180) / 2 = 0.00025 * π / 180 by ring,
      Real.sin_neg,
      show (0:ℝ) * π / 180 = 0 by ring, Real.cos_zero]
    ring
  have hcos : (0:ℝ) ≤ Real.cos (0.001 * π / 180) :=
    Real.cos_nonneg_of_mem_Icc
      ⟨by linarith [Real.pi_pos], by linarith [Real.pi_pos]⟩
  have ha : Real.sin (0.0005 * π / 180) ^ 2 ≤ hav_a (0.001, 0.0005) (0, 0.001) := by
    rw [e]
    have := mul_nonneg hcos (sq_nonneg (Real.sin (0.00025 * π / 180)))
    linarith
  have hb := haversine_lb (0.001, 0.0005) (0, 0.001) (0.0005 * π / 180)
    (by positivity) (by linarith [Real.pi_pos]) ha
  linarith [Real.pi_gt_three]

/-! ## Concrete courses and streams used by the spec's examples -/

/-- A single turning mark at the origin. -/
def mark_M1 : Mark := ⟨"M1", 0, 0⟩

/-- A one-compound-mark course. -/
def course_single : List CompoundMark := [⟨"CM1", [mark_M1]⟩]

/-- The spec's gate: marks at (0,0) and (0,1). -/
def gate_big : CompoundMark := ⟨"G", [⟨"G1", 0, 0⟩, ⟨"G2", 0, 1⟩]⟩

/-- A course starting with the spec's gate (plus a following mark, so the
advancement guard `idx < len(course) - 1` is not what blocks rounding). -/
def course_gate_big : List CompoundMark := [gate_big, ⟨"CM2", [⟨"M2", 1, 1⟩]⟩]

/-- The spec's gate geometry scaled by 1/1000: marks at (0,0) and (0,0.001). -/
def gate_small : CompoundMark := ⟨"G", [⟨"G1", 0, 0⟩, ⟨"G2", 0, 0.001⟩]⟩

/-- Course starting with the scaled gate. -/
def course_gate_small : List CompoundMark := [gate_small, ⟨"CM2", [⟨"M2", 1, 1⟩]⟩]

/-- A boat sitting on a single mark with no position jump is rounded. -/
lemma rounded_single_at_mark :
    is_mark_rounded (0, 0) ⟨"CM1", [mark_M1]⟩ (some (0, 0)) = true := by
  norm_num [is_mark_rounded, mark_M1, haversine_self, Option.elim]

/-- The spec's original gate example: the 2° hop from (-1,0.5) to (1,0.5)
trips the 300 m jump guard, so no rounding is detected. -/
lemma not_rounded_big_gate :
    is_mark_rounded (1, 0.5) gate_big (some (-1, 0.5)) = false := by
  unfold is_mark_rounded
  rw [show (some ((-1:ℝ), (0.5:ℝ))).elim False
      (fun pp => 300 < haversine_distance (1, 0.5) pp) =
      (300 < haversine_distance (1, 0.5) (-1, 0.5)) from rfl]
  rw [if_pos hav_gt_300_two_deg]

/-- The scaled gate example: jump within 300 m, both proximity tests fail,
and the segment crosses the gate line, so rounding is detected. -/
lemma rounded_small_gate :
    is_mark_rounded (0.001, 0.0005) gate_small (some (-0.001, 0.0005)) = true := by
  have h1 : ¬ (300:ℝ) < haversine_distance (0.001, 0.0005) (-0.001, 0.0005) :=
    not_lt.mpr hav_le_300_small_jump
  have h2 := hav_gt_100_gate_m0
  have h3 := hav_gt_100_gate_m1
  simp only [is_mark_rounded, gate_small, Option.elim, List.length_cons,
    List.length_nil, List.getD_cons_zero, List.getD_cons_succ, cross2, np_sign]
  rw [if_neg h1]
  norm_num
  right
  rw [abs_of_pos (by norm_num : (0:ℝ) < 1 / 500000)]
  norm_num

/-! ## Tracker structure lemmas -/

/-- Every output row reports the state index it was produced with. -/
lemma track_row_leg (course : List CompoundMark) (pos : ℝ × ℝ) (idx : ℕ) :
    (track_row course pos idx).CURRENT_LEG_NUM = idx := by
  unfold track_row
  split <;> rfl

/-- The index never decreases in a step. -/
lemma track_step_idx_ge (course : List CompoundMark) (idx : ℕ)
    (prev : Option (ℝ × ℝ)) (pos : ℝ × ℝ) :
    idx ≤ track_step_idx course idx prev pos := by
  unfold track_step_idx
  split <;> omega

/-- The index grows by at most one in a step. -/
lemma track_step_idx_le (course : List CompoundMark) (idx : ℕ)
    (prev : Option (ℝ × ℝ)) (pos : ℝ × ℝ) :
    track_step_idx course idx prev pos ≤ idx + 1 := by
  unfold track_step_idx
  split <;> omega

/-- One output row per input sample. -/
lemma track_aux_length (course : List CompoundMark) (s : List (ℝ × ℝ)) :
    ∀ (idx : ℕ) (prev : Option (ℝ × ℝ)),
      (track_aux course idx prev s).length = s.length := by
  induction s with
  | nil => intro idx prev; rfl
  | cons p rest ih =>
    intro idx prev
    simp only [track_aux, List.length_cons, ih]

/-- Consecutive emitted leg indices satisfy `a ≤ b ≤ a + 1`. -/
lemma track_aux_chain (course : List CompoundMark) (s : List (ℝ × ℝ)) :
    ∀ (idx : ℕ) (prev : Option (ℝ × ℝ)),
      List.Chain' (fun a b => a ≤ b ∧ b ≤ a + 1)
        ((track_aux course idx prev s).map (·.CURRENT_LEG_NUM)) := by
  induction s with
  | nil => intro idx prev; simp [track_aux]
  | cons p rest ih =>
    intro idx prev
    simp only [track_aux, List.map_cons]
    rw [List.chain'_cons']
    refine ⟨?_, ih _ _⟩
    intro y hy
    cases rest with
    | nil => simp [track_aux] at hy
    | cons q t =>
      simp only [track_aux, List.map_cons, List.head?_cons, Option.mem_def,
        Option.some.injEq] at hy
      rw [track_row_leg, ← hy, track_row_leg]
      exact ⟨track_step_idx_ge _ _ _ _, track_step_idx_le _ _ _ _⟩

/-- C2: for every course and every input position stream, the emitted
`CURRENT_LEG_NUM` sequence is monotonically non-decreasing and increases by
at most 1 between consecutive samples (no mark-skipping, never decreases). -/
theorem c2_leg_monotone (course : List CompoundMark) (stream : List (ℝ × ℝ)) (i : ℕ)
    (h : i + 1 < (add_own_mark_tracking course stream).length) :
    ((add_own_mark_tracking course stream).get
        ⟨i, Nat.lt_of_succ_lt h⟩).CURRENT_LEG_NUM ≤
      ((add_own_mark_tracking course stream).get ⟨i + 1, h⟩).CURRENT_LEG_NUM ∧
    ((add_own_mark_tracking course stream).get ⟨i + 1, h⟩).CURRENT_LEG_NUM ≤
      ((add_own_mark_tracking course stream).get
        ⟨i, Nat.lt_of_succ_lt h⟩).CURRENT_LEG_NUM + 1 := by
  have hlen : (add_own_mark_tracking course stream).length =
      ((track_aux course 0 none stream).map (·.CURRENT_LEG_NUM)).length := by
    simp [add_own_mark_tracking]
  have hb : i < ((track_aux course 0 none stream).map (·.CURRENT_LEG_NUM)).length - 1 := by
    rw [← hlen]; omega
  have hc := (List.chain'_iff_get.mp (track_aux_chain course stream 0 none)) i hb
  simpa [add_own_mark_tracking, List.get_eq_getElem, List.getElem_map] using hc

/-- Witness for C2 at a concrete course and stream. -/
theorem c2_leg_monotone_witness :
    ((add_own_mark_tracking course_single [(0, 0), (0, 0)]).get
        ⟨0, by norm_num [add_own_mark_tracking, track_aux_length]⟩).CURRENT_LEG_NUM ≤
      ((add_own_mark_tracking course_single [(0, 0), (0, 0)]).get
        ⟨1, by norm_num [add_own_mark_tracking, track_aux_length]⟩).CURRENT_LEG_NUM ∧
    ((add_own_mark_tracking course_single [(0, 0), (0, 0)]).get
        ⟨1, by norm_num [add_own_mark_tracking, track_aux_length]⟩).CURRENT_LEG_NUM ≤
      ((add_own_mark_tracking course_single [(0, 0), (0, 0)]).get
        ⟨0, by norm_num [add_own_mark_tracking, track_aux_length]⟩).CURRENT_LEG_NUM + 1 :=
  c2_leg_monotone course_single [(0, 0), (0, 0)] 0
    (by norm_num [add_own_mark_tracking, track_aux_length])

/-- C1 (failing input): on the one-mark course with a boat sitting on the
mark, the rounding condition holds from the second sample on, yet the
tracker's guard `current_mark_idx < len(course) - 1` never lets the index
reach `len(course) = 1`: every row reports mark "M1" and leg 0, and the
"FINISHED" terminal state is unreachable. -/
theorem c1_tracker_never_finishes :
    is_mark_rounded (0, 0) ⟨"CM1", [mark_M1]⟩ (some (0, 0)) = true ∧
    (add_own_mark_tracking course_single [(0, 0), (0, 0)]).map
        (fun r => (r.NEXT_MARK, r.CURRENT_LEG_NUM)) = [("M1", 0), ("M1", 0)] := by
  refine ⟨rounded_single_at_mark, ?_⟩
  norm_num [add_own_mark_tracking, track_aux, track_step_idx, track_row,
    course_single, mark_M1]

/-- C4 (counterexample): on the spec's literal gate example — gate marks at
(0,0) and (0,1), boat from (-1,0.5) to (1,0.5) — no rounding is detected
(the 222 km hop trips the code's 300 m jump guard) and the tracker never
advances: the leg sequence is [0, 0], not an advance at the crossing
sample. -/
theorem c4_gate_example_no_advance :
    is_mark_rounded (1, 0.5) gate_big (some (-1, 0.5)) = false ∧
    (add_own_mark_tracking course_gate_big [(-1, 0.5), (1, 0.5)]).map
        (·.CURRENT_LEG_NUM) = [0, 0] := by
  refine ⟨not_rounded_big_gate, ?_⟩
  have hg : course_gate_big.getD 0 defaultCompound = gate_big := rfl
  have hstep1 : track_step_idx course_gate_big 0 none (-1, 0.5) = 0 := by
    unfold track_step_idx
    rw [if_neg]
    rintro ⟨hs, -, -⟩
    simp at hs
  have hstep2 : track_step_idx course_gate_big 0 (some (-1, 0.5)) (1, 0.5) = 0 := by
    unfold track_step_idx
    rw [if_neg]
    rintro ⟨-, -, hr⟩
    rw [hg, not_rounded_big_gate] at hr
    simp at hr
  simp [add_own_mark_tracking, track_aux, hstep1, hstep2, track_row_leg]

/-- C4 (amended): the same gate geometry scaled by 1/1000 (so the hop is
≈ 222 m ≤ 300 m): the crossing is detected at the second sample and the
tracker advances the mark index exactly once, at that sample and not
before: the leg sequence is [0, 1]. -/
theorem c4_gate_crossing_advances_once :
    is_mark_rounded (0.001, 0.0005) gate_small (some (-0.001, 0.0005)) = true ∧
    (add_own_mark_tracking course_gate_small [(-0.001, 0.0005), (0.001, 0.0005)]).map
        (·.CURRENT_LEG_NUM) = [0, 1] := by
  refine ⟨rounded_small_gate, ?_⟩
  have hg : course_gate_small.getD 0 defaultCompound = gate_small := rfl
  have hstep1 : track_step_idx course_gate_small 0 none (-0.001, 0.0005) = 0 := by
    unfold track_step_idx
    rw [if_neg]
    rintro ⟨hs, -, -⟩
    simp at hs
  have hstep2 :
      track_step_idx course_gate_small 0 (some (-0.001, 0.0005)) (0.001, 0.0005) = 1 := by
    unfold track_step_idx
    rw [if_pos]
    refine ⟨rfl, by norm_num [course_gate_small], ?_⟩
    rw [hg]
    exact rounded_small_gate
  simp [add_own_mark_tracking, track_aux, hstep1, hstep2, track_row_leg]

/-- Evaluation of the GPS-jump filter on the spec's example: the second
point is already 0.01° of longitude (≈ 1112 m) from the first, above the
100 m threshold, so it is dropped along with the third. -/
lemma c3_eval : filter_gps_jumps [(0, 0), (0, 0.01), (50, 50)] 100 = [(0, 0)] := by
  have h1 : ¬ haversine_distance (0, 0) (0, 0.01) ≤ 100 :=
    not_le.mpr hav_gt_100_equator
  have h2 : ¬ haversine_distance (0, 0) (50, 50) ≤ 100 :=
    not_le.mpr hav_gt_100_faraway
  rw [show ((0:ℝ), (0:ℝ)) = (0 : ℝ × ℝ) from rfl] at h1 h2
  simp [filter_gps_jumps, filter_jumps_aux, h1, h2]

/-- C3 (counterexample): the output is not the first two points. -/
theorem c3_spec_example_fails :
    filter_gps_jumps [(0, 0), (0, 0.01), (50, 50)] 100 ≠ [(0, 0), (0, 0.01)] := by
  rw [c3_eval]
  simp

/-- C3 (amended): with maxJump = 100 m the filter keeps only the first
point of [(0,0), (0,0.01), (50,50)]: the second point (≈ 1112 m away) and
the third are both dropped, each measured against the last kept point. -/
theorem c3_only_first_point_kept :
    filter_gps_jumps [(0, 0), (0, 0.01), (50, 50)] 100 = [(0, 0)] := c3_eval

/-! ## Leader selection -/

/-- The fold of `determine_leader` returns a boat whose key is minimal. -/
lemma leader_fold_min (bs : List (String × ℤ × ℝ)) :
    ∀ (b0 x : String × ℤ × ℝ), x ∈ b0 :: bs →
      boat_key (leader_fold b0 bs) ≤ boat_key x := by
  induction bs with
  | nil =>
    intro b0 x hx
    rcases List.mem_singleton.mp hx with rfl
    exact le_refl _
  | cons y t ih =>
    intro b0 x hx
    have he : leader_fold b0 (y :: t) =
        leader_fold (if boat_key y < boat_key b0 then y else b0) t := rfl
    rw [he]
    by_cases hk : boat_key y < boat_key b0
    · rw [if_pos hk]
      rcases List.mem_cons.mp hx with rfl | hx2
      · exact le_trans (ih y y (List.mem_cons_self y t)) (le_of_lt hk)
      · exact ih y x hx2
    · rw [if_neg hk]
      rcases List.mem_cons.mp hx with rfl | hx2
      · exact ih x x (List.mem_cons_self x t)
      · rcases List.mem_cons.mp hx2 with rfl | hx3
        · exact le_trans (ih b0 b0 (List.mem_cons_self b0 t)) (le_of_not_lt hk)
        · exact ih b0 x (List.mem_cons_of_mem b0 hx3)

/-- C5: `determine_leader` returns the boat minimizing `(-mark index,
distance to next mark)`: every candidate either has a strictly lower mark
index than the selected leader, or ties on the index with a distance no
smaller; in particular, at equal mark index 2, the boat at 10 m beats the
boat at 50 m. -/
theorem c5_leader_selection :
    (∀ (b0 : String × ℤ × ℝ) (bs : List (String × ℤ × ℝ)) (x : String × ℤ × ℝ),
        x ∈ b0 :: bs →
          determine_leader (b0 :: bs) = some (leader_fold b0 bs).1 ∧
            (x.2.1 < (leader_fold b0 bs).2.1 ∨
              (x.2.1 = (leader_fold b0 bs).2.1 ∧
                (leader_fold b0 bs).2.2 ≤ x.2.2))) ∧
      determine_leader [("BoatA", 2, 50), ("BoatB", 2, 10)] = some "BoatB" := by
  constructor
  · intro b0 bs x hx
    refine ⟨rfl, ?_⟩
    have h := leader_fold_min bs b0 x hx
    simp only [boat_key] at h
    rw [Prod.Lex.le_iff] at h
    simp only at h
    rcases h with h | ⟨h1, h2⟩
    · left; omega
    · right; exact ⟨by omega, h2⟩
  · have hk : boat_key ("BoatB", 2, 10) < boat_key ("BoatA", 2, 50) := by
      simp only [boat_key]
      rw [Prod.Lex.lt_iff]
      right
      exact ⟨rfl, by norm_num⟩
    simp [determine_leader, leader_fold, hk]

/-- Witness for C5 at the spec's two-boat example. -/
theorem c5_leader_selection_witness :
    determine_leader [("BoatA", 2, 50), ("BoatB", 2, 10)] =
        some (leader_fold ("BoatA", 2, 50) [("BoatB", 2, 10)]).1 ∧
      ((("BoatB", 2, 10) : String × ℤ × ℝ).2.1 <
          (leader_fold ("BoatA", 2, 50) [("BoatB", 2, 10)]).2.1 ∨
        ((("BoatB", 2, 10) : String × ℤ × ℝ).2.1 =
            (leader_fold ("BoatA", 2, 50) [("BoatB", 2, 10)]).2.1 ∧
          (leader_fold ("BoatA", 2, 50) [("BoatB", 2, 10)]).2.2 ≤
            (("BoatB", 2, 10) : String × ℤ × ℝ).2.2)) :=
  c5_leader_selection.1 ("BoatA", 2, 50) [("BoatB", 2, 10)] ("BoatB", 2, 10)
    (by simp)

/-- C9: the haversine distance from any point to itself is 0, and the
function is symmetric in its two arguments (the implementation fixes the
mean Earth radius 6 371 000 m). -/
theorem c9_haversine_props :
    (∀ p : ℝ × ℝ, haversine_distance p p = 0) ∧
      ∀ a b : ℝ × ℝ, haversine_distance a b = haversine_distance b a :=
  ⟨haversine_self, haversine_comm⟩

/-! ## DTL lemmas -/

lemma getD_of_lt {α : Type _} (l : List α) (n : ℕ) (d : α) (h : n < l.length) :
    l.getD n d = l.get ⟨n, h⟩ := by
  rw [List.getD_eq_getElem?_getD, List.getElem?_eq_getElem h]
  rfl

/-- In a `≤`-sorted list every element is at most the last one. -/
lemma sorted_le_getLast {l : List ℤ} (hs : l.Sorted (· ≤ ·)) (hne : l ≠ []) :
    ∀ x ∈ l, x ≤ l.getLast hne := by
  induction l with
  | nil => exact absurd rfl hne
  | cons a t ih =>
    intro x hx
    cases t with
    | nil =>
      rcases List.mem_singleton.mp hx with rfl
      rfl
    | cons b u =>
      have hs2 : (b :: u).Sorted (· ≤ ·) := (List.sorted_cons.mp hs).2
      rw [List.getLast_cons (by simp : (b :: u) ≠ [])]
      rcases List.mem_cons.mp hx with rfl | hx2
      · exact le_trans ((List.sorted_cons.mp hs).1 b (List.mem_cons_self b u))
          (ih hs2 (by simp) b (List.mem_cons_self b u))
      · exact ih hs2 (by simp) x hx2

/-- C6 (amended): when `searchsorted` lands inside the leader stream, the
matched leader record is the *first* record whose timestamp is at or after
the sample's timestamp — every earlier record is strictly before it — and
the sample is then not skipped by `dtl_row`. The nearest match is above,
not below. -/
theorem c6_matched_record_nearest_above (L : List LeaderRow)
    (course : List CompoundMark) (r : PosRow)
    (hlt : searchsorted_left (L.map (·.DATETIME)) r.DATETIME < L.length) :
    r.DATETIME ≤ (L.getD (searchsorted_left (L.map (·.DATETIME)) r.DATETIME)
        defaultLeaderRow).DATETIME ∧
      (∀ j, j < searchsorted_left (L.map (·.DATETIME)) r.DATETIME →
        (L.getD j defaultLeaderRow).DATETIME < r.DATETIME) ∧
      dtl_row L course r ≠ some none := by
  have hmap : (L.map (·.DATETIME)).length = L.length := List.length_map _ _
  have hi : (L.map (·.DATETIME)).findIdx (fun x => r.DATETIME ≤ x) <
      (L.map (·.DATETIME)).length := by
    rw [hmap]
    exact hlt
  refine ⟨?_, ?_, ?_⟩
  · have h := List.findIdx_getElem (w := hi)
    rw [getD_of_lt L _ _ hlt]
    simp only [List.getElem_map, decide_eq_true_eq] at h
    simpa [searchsorted_left, List.get_eq_getElem] using h
  · intro j hj
    have hjlen : j < L.length := lt_trans hj hlt
    have hj2 : j < (L.map (·.DATETIME)).findIdx (fun x => decide (r.DATETIME ≤ x)) := hj
    have h := List.not_of_lt_findIdx hj2
    simp only [List.getElem_map, decide_eq_false_iff_not, not_le] at h
    rw [getD_of_lt L _ _ hjlen]
    simpa [List.get_eq_getElem] using h
  · simp only [dtl_row]
    rw [if_neg (not_le.mpr hlt)]
    split <;> simp

/-- A two-record leader stream (timestamps 0 and 10, legs 0 and 5). -/
def leader_stream_ex : List LeaderRow := [⟨0, "LDR", 0, 0, 0⟩, ⟨10, "LDR", 0, 0, 5⟩]

/-- A subject sample at timestamp 5 (strictly between the leader records). -/
def pos_row_ex : PosRow := ⟨5, 0, 0, 0⟩

lemma searchsorted_ex :
    searchsorted_left (leader_stream_ex.map (·.DATETIME)) pos_row_ex.DATETIME = 1 := by
  norm_num [leader_stream_ex, pos_row_ex, searchsorted_left, List.findIdx_cons]

lemma searchsorted_ex_norm : searchsorted_left [0, 10] 5 = 1 := by
  norm_num [searchsorted_left, List.findIdx_cons]

/-- C6 (counterexample): for leader records at t = 0 (leg 0) and t = 10
(leg 5) and a subject sample at t = 5 on leg 0, `calculate_dtl` matches the
*later* record (t = 10): the emitted LEG_BEHIND is 5, taken from the t = 10
record, while the record at or immediately preceding t = 5 is the t = 0
record with leg 0. -/
theorem c6_later_record_used :
    dtl_row leader_stream_ex course_single pos_row_ex = some (some ⟨5, 0, 0, 5⟩) ∧
      pos_row_ex.DATETIME < (leader_stream_ex.getD 1 defaultLeaderRow).DATETIME ∧
      (leader_stream_ex.getD 0 defaultLeaderRow).DATETIME < pos_row_ex.DATETIME ∧
      (leader_stream_ex.getD 0 defaultLeaderRow).LEADER_LEG = 0 := by
  refine ⟨?_, by norm_num [leader_stream_ex, pos_row_ex],
    by norm_num [leader_stream_ex, pos_row_ex], by norm_num [leader_stream_ex]⟩
  norm_num [dtl_row, searchsorted_ex_norm, leader_stream_ex, pos_row_ex, course_single,
    mark_M1, haversine_self]

/-- Witness for the amended C6 at the concrete two-record stream. -/
theorem c6_matched_record_nearest_above_witness :
    pos_row_ex.DATETIME ≤ (leader_stream_ex.getD
        (searchsorted_left (leader_stream_ex.map (·.DATETIME)) pos_row_ex.DATETIME)
        defaultLeaderRow).DATETIME ∧
      (leader_stream_ex.getD 0 defaultLeaderRow).DATETIME < pos_row_ex.DATETIME ∧
      dtl_row leader_stream_ex course_single pos_row_ex ≠ some none := by
  have h := c6_matched_record_nearest_above leader_stream_ex course_single pos_row_ex
    (by rw [searchsorted_ex]; norm_num [leader_stream_ex])
  exact ⟨h.1, h.2.1 0 (by rw [searchsorted_ex]; norm_num), h.2.2⟩

/-- C7: whenever the subject sample's timestamp equals the matched leader
record's timestamp and the direct haversine distance to the leader position
is below 1 m, the emitted record has course-adjusted DTL 0 and legs-behind
0, regardless of the raw leg arithmetic. -/
theorem c7_same_instant_forces_zero (L : List LeaderRow) (course : List CompoundMark)
    (r : PosRow) (d : DtlRow)
    (ht : r.DATETIME = (L.getD (searchsorted_left (L.map (·.DATETIME)) r.DATETIME)
        defaultLeaderRow).DATETIME)
    (hd : haversine_distance (r.LATITUDE_GPS, r.LONGITUDE_GPS)
        ((L.getD (searchsorted_left (L.map (·.DATETIME)) r.DATETIME)
            defaultLeaderRow).LEADER_LAT,
          (L.getD (searchsorted_left (L.map (·.DATETIME)) r.DATETIME)
            defaultLeaderRow).LEADER_LON) < 1)
    (hout : dtl_row L course r = some (some d)) :
    d.DTL_INDIRECT = 0 ∧ d.LEG_BEHIND = 0 := by
  simp only [dtl_row] at hout
  by_cases hlen : L.length ≤ searchsorted_left (L.map (·.DATETIME)) r.DATETIME
  · rw [if_pos hlen] at hout
    simp at hout
  · rw [if_neg hlen] at hout
    rcases hm : ((course.get? r.CURRENT_LEG_NUM).bind fun cm => cm.marks.head?) with _ | nm
    · simp only [hm] at hout
      exact absurd hout (by simp)
    · simp only [hm] at hout
      rw [if_pos ⟨ht, hd⟩, if_pos ⟨ht, hd⟩] at hout
      simp only [Option.some.injEq] at hout
      rw [← hout]
      exact ⟨rfl, rfl⟩

/-- A one-record leader stream whose timestamp matches `pos_row_ex` and
whose leg (3) differs from the subject's leg (0). -/
def leader_stream_same : List LeaderRow := [⟨5, "LDR", 0, 0, 3⟩]

lemma searchsorted_same :
    searchsorted_left (leader_stream_same.map (·.DATETIME)) pos_row_ex.DATETIME = 0 := by
  norm_num [leader_stream_same, pos_row_ex, searchsorted_left, List.findIdx_cons]

lemma searchsorted_same_norm : searchsorted_left [5] 5 = 0 := by
  norm_num [searchsorted_left, List.findIdx_cons]

/-- Evaluation of `dtl_row` on the same-instant example: the raw leg
difference is 3 - 0 = 3, but the emitted record is forced to (0, 0). -/
lemma dtl_row_same_eval :
    dtl_row leader_stream_same course_single pos_row_ex = some (some ⟨5, 0, 0, 0⟩) := by
  norm_num [dtl_row, searchsorted_same_norm, leader_stream_same, pos_row_ex, course_single,
    mark_M1, haversine_self]

/-- Witness for C7 at the same-instant example. -/
theorem c7_same_instant_forces_zero_witness :
    (⟨5, 0, 0, 0⟩ : DtlRow).DTL_INDIRECT = 0 ∧ (⟨5, 0, 0, 0⟩ : DtlRow).LEG_BEHIND = 0 :=
  c7_same_instant_forces_zero leader_stream_same course_single pos_row_ex ⟨5, 0, 0, 0⟩
    (by norm_num [searchsorted_same_norm, leader_stream_same, pos_row_ex])
    (by norm_num [searchsorted_same_norm, leader_stream_same, pos_row_ex, haversine_self])
    dtl_row_same_eval

/-- C10: a subject sample whose timestamp sorts strictly after the last
leader timestamp is silently skipped: `dtl_row` yields no record and
`calculate_dtl` on a stream starting with that sample equals `calculate_dtl`
on the rest, so the output can have fewer rows than the input. -/
theorem c10_sample_after_leader_end_skipped (L : List LeaderRow)
    (course : List CompoundMark) (r : PosRow) (rs : List PosRow)
    (hne : L ≠ [])
    (hs : (L.map (·.DATETIME)).Sorted (· ≤ ·))
    (hlast : (L.getLast hne).DATETIME < r.DATETIME) :
    dtl_row L course r = some none ∧
      calculate_dtl (r :: rs) L course = calculate_dtl rs L course := by
  have hmape : (L.map (·.DATETIME)) ≠ [] := by simpa using hne
  have hall : ∀ x ∈ L.map (·.DATETIME), x < r.DATETIME := by
    intro x hx
    have h1 := sorted_le_getLast hs hmape x hx
    rw [List.getLast_map] at h1
    exact lt_of_le_of_lt h1 hlast
  have hidx : searchsorted_left (L.map (·.DATETIME)) r.DATETIME =
      (L.map (·.DATETIME)).length := by
    apply List.findIdx_eq_length_of_false
    intro x hx
    simp only [decide_eq_false_iff_not, not_le]
    exact hall x hx
  have hskip : dtl_row L course r = some none := by
    simp only [dtl_row, hidx]
    rw [if_pos (le_of_eq (List.length_map _ _).symm)]
  refine ⟨hskip, ?_⟩
  simp only [calculate_dtl, hskip]

/-- A subject sample later than every record of `leader_stream_ex`. -/
def pos_row_late : PosRow := ⟨99, 0, 0, 0⟩

/-- Witness for C10 at the concrete two-record stream. -/
theorem c10_sample_after_leader_end_skipped_witness :
    dtl_row leader_stream_ex course_single pos_row_late = some none ∧
      calculate_dtl [pos_row_late] leader_stream_ex course_single =
        calculate_dtl [] leader_stream_ex course_single :=
  c10_sample_after_leader_end_skipped leader_stream_ex course_single pos_row_late []
    (by simp [leader_stream_ex])
    (by norm_num [leader_stream_ex, List.sorted_cons])
    (by norm_num [leader_stream_ex, pos_row_late, List.getLast])

/-! ## VMC -/

lemma radians_abs (x : ℝ) : radians |x| = |radians x| := by
  unfold radians
  rw [abs_div, abs_mul, abs_of_pos Real.pi_pos]
  norm_num

/-- `calculate_vmc` computes `speed * cos` of the raw heading/bearing
difference: the one-step fold at 180° never changes the cosine. -/
lemma calculate_vmc_eq (s h b : ℝ) :
    calculate_vmc s h b = s * Real.cos (radians (h - b)) := by
  simp only [calculate_vmc]
  by_cases hgt : 180 < |h - b|
  · rw [if_pos hgt]
    have h1 : radians (360 - |h - b|) = 2 * π - radians |h - b| := by
      unfold radians; ring
    rw [h1, Real.cos_two_pi_sub, radians_abs, Real.cos_abs]
  · rw [if_neg hgt, radians_abs, Real.cos_abs]

/-- The spec's reduced angular difference lies in `[0,180]` and has the
same cosine as the raw difference. -/
lemma spec_angular_diff_props (h b : ℝ) :
    0 ≤ spec_angular_diff h b ∧ spec_angular_diff h b ≤ 180 ∧
      Real.cos (radians (spec_angular_diff h b)) = Real.cos (radians (h - b)) := by
  unfold spec_angular_diff
  set x := h - b with hx
  set k : ℤ := ⌊x / 360⌋ with hk
  set m := x - 360 * (k : ℝ) with hmdef
  have hf1 : (k : ℝ) ≤ x / 360 := Int.floor_le (x / 360)
  have hf2 : x / 360 < (k : ℝ) + 1 := Int.lt_floor_add_one (x / 360)
  have hm0 : 0 ≤ m := by rw [hmdef]; linarith
  have hm1 : m < 360 := by rw [hmdef]; linarith
  have habs : |m - 180| ≤ 180 := abs_le.mpr ⟨by linarith, by linarith⟩
  have hcosm : Real.cos (radians m) = Real.cos (radians x) := by
    have hrm : radians m = radians x - (k : ℝ) * (2 * π) := by
      rw [hmdef]; unfold radians; ring
    rw [hrm]
    exact Real.cos_sub_int_mul_two_pi (radians x) k
  refine ⟨by linarith, by linarith [abs_nonneg (m - 180)], ?_⟩
  by_cases hm180 : m ≤ 180
  · rw [show |m - 180| = 180 - m by rw [abs_of_nonpos (by linarith)]; ring,
      show (180:ℝ) - (180 - m) = m by ring]
    exact hcosm
  · rw [abs_of_nonneg (by linarith : (0:ℝ) ≤ m - 180),
      show (180:ℝ) - (m - 180) = 360 - m by ring,
      show radians (360 - m) = 2 * π - radians m by unfold radians; ring,
      Real.cos_two_pi_sub]
    exact hcosm

/-- C8 (amended): per sample, VMC equals `speed * cos` of the heading /
bearing angular difference reduced into `[0,180]` degrees — for *all* real
headings and bearings, since the code's one-step fold agrees with the full
reduction under the cosine. The finished state, however, is hardcoded as
`CURRENT_LEG_NUM == 7` (not the course length `N`): rows with leg 7 report
VMC 0, and rows with any other leg index are computed from the bearing to
`course[leg].marks[0]`. -/
theorem c8_vmc_formula_and_hardcoded_finish :
    (∀ s h b : ℝ,
        0 ≤ spec_angular_diff h b ∧ spec_angular_diff h b ≤ 180 ∧
          calculate_vmc s h b = s * Real.cos (radians (spec_angular_diff h b))) ∧
      (∀ (bearing : ℝ → ℝ → ℝ → ℝ → ℝ) (course : List CompoundMark) (r : VmcRow),
        r.CURRENT_LEG_NUM = 7 → vmc_row bearing course r = some 0) ∧
      (∀ (bearing : ℝ → ℝ → ℝ → ℝ → ℝ) (course : List CompoundMark) (r : VmcRow)
          (cm : CompoundMark) (nm : Mark),
        r.CURRENT_LEG_NUM ≠ 7 → course.get? r.CURRENT_LEG_NUM = some cm →
          cm.marks.head? = some nm →
          vmc_row bearing course r = some (calculate_vmc r.SPEED r.HEADING
            (bearing r.LATITUDE_GPS r.LONGITUDE_GPS nm.lat nm.lon))) := by
  refine ⟨?_, ?_, ?_⟩
  · intro s h b
    obtain ⟨h0, h1, hcos⟩ := spec_angular_diff_props h b
    exact ⟨h0, h1, by rw [calculate_vmc_eq, hcos]⟩
  · intro bearing course r h7
    norm_num [vmc_row, h7]
  · intro bearing course r cm nm h7 hget hhead
    rw [List.get?_eq_getElem?] at hget
    simp [vmc_row, h7, hget, hhead]

/-- C8 (counterexample): on a 1-compound-mark course, a sample in the
claim's finished state (leg index = N = 1) does not report VMC 0 — the
hardcoded `== 7` check misses and `course[1]` raises `IndexError`, aborting
the whole computation. -/
theorem c8_finished_leg_not_zero :
    calculate_track_vmc (fun _ _ _ _ => 0) [⟨0, 0, 0, 0, 1⟩] course_single = none := by
  norm_num [calculate_track_vmc, vmc_row, course_single]

/-- Witness for C8 at a concrete heading 190°, bearing 0°, speed 2, and at
a concrete finished (leg 7) row and a concrete sailing (leg 0) row. -/
theorem c8_vmc_formula_witness :
    (0 ≤ spec_angular_diff 190 0 ∧ spec_angular_diff 190 0 ≤ 180 ∧
        calculate_vmc 2 190 0 = 2 * Real.cos (radians (spec_angular_diff 190 0))) ∧
      vmc_row (fun _ _ _ _ => 0) course_single ⟨0, 0, 0, 0, 7⟩ = some 0 ∧
      vmc_row (fun _ _ _ _ => 0) course_single ⟨0, 0, 0, 0, 0⟩ =
        some (calculate_vmc 0 0 0) :=
  ⟨c8_vmc_formula_and_hardcoded_finish.1 2 190 0,
    c8_vmc_formula_and_hardcoded_finish.2.1 (fun _ _ _ _ => 0) course_single
      ⟨0, 0, 0, 0, 7⟩ rfl,
    c8_vmc_formula_and_hardcoded_finish.2.2 (fun _ _ _ _ => 0) course_single
      ⟨0, 0, 0, 0, 0⟩ ⟨"CM1", [mark_M1]⟩ mark_M1 (by norm_num) rfl rfl⟩

end

end SGP
